import Mathlib

/-!
Verification development for the `process.py` pipeline: streaming extraction
of paragraph records from TEI-XML novels, metadata join, deterministic
train/test split, and a local/remote sink.  Python strings are modelled as
Lean `String`, Python `None`-able values as `Option`, the filesystem as a
function from filenames to file contents, and environment variables as a
function from names to `Option String`.
-/

namespace Process

/-- Model of Python's whitespace test used by `str.strip()`. -/
def isPySpace (c : Char) : Bool := c.isWhitespace

/-- Python sees strip as dropping whitespace from both ends of the character list. -/
def stripChars (l : List Char) : List Char :=
  List.rdropWhile isPySpace (List.dropWhile isPySpace l)

/-- Model of Python's case conversion `str.lower()` on the ASCII values this
program compares against. -/
def pyLower (s : String) : String := String.mk (s.data.map Char.toLower)

/-- Model of Python's `str.strip()` (as used in `"".join(elem.itertext()).strip()`). -/
def pyStrip (s : String) : String := String.mk (stripChars s.data)

/- A parsed XML element as built by lxml: namespace, local tag name,
leading text, children (each child stores its own tail text), and the
element's tail text.  A None text is modelled as "" (it contributes
nothing to itertext). -/
mutual
inductive Elem where
  | node (ns locName text : String) (children : Forest) (tail : String)
inductive Forest where
  | nil
  | cons (head : Elem) (rest : Forest)
end

/- The model of "".join(elem.itertext()): the element's text followed by,
for each child in order, the child's itertext and then the child's tail.
The element's own tail is not included. -/
mutual
def itertext : Elem → String
  | .node _ _ t cs _ => t ++ itertextForest cs
def itertextForest : Forest → String
  | .nil => ""
  | .cons (.node ns ln t cs tl) rest =>
      itertext (.node ns ln t cs tl) ++ tl ++ itertextForest rest
end

/- Whether the subtree rooted here contains any element with local name "p"
(the elements matched by the namespace-wildcard iterparse tag filter). -/
mutual
def hasP : Elem → Bool
  | .node _ ln _ cs _ => ln == "p" || hasPForest cs
def hasPForest : Forest → Bool
  | .nil => false
  | .cons e rest => hasP e || hasPForest rest
end

/- No "p" element strictly contains another "p" element. -/
mutual
def noNestedP : Elem → Bool
  | .node _ ln _ cs _ =>
      (!(ln == "p") || !(hasPForest cs)) && noNestedPForest cs
def noNestedPForest : Forest → Bool
  | .nil => true
  | .cons e rest => noNestedP e && noNestedPForest rest
end

/- The per-document event loop of paragraph_generator.  End-of-element
events arrive in postorder; at each element whose local name is "p" the
loop computes "".join(elem.itertext()).strip() on the element's current
(possibly already mutated) subtree, records it as a candidate, then
executes elem.clear() — which removes the element's children and resets
its text and tail, but leaves the element attached to its parent.
Returns the candidate texts in event order and the residual subtree. -/
mutual
def processElem : Elem → List String × Elem
  | .node ns ln t cs tl =>
      let r := processForest cs
      if ln == "p" then
        let cand := pyStrip (itertext (.node ns ln t r.2 tl))
        (r.1 ++ [cand], .node ns ln "" .nil "")
      else
        (r.1, .node ns ln t r.2 tl)
def processForest : Forest → List String × Forest
  | .nil => ([], .nil)
  | .cons e rest =>
      let r1 := processElem e
      let r2 := processForest rest
      (r1.1 ++ r2.1, .cons r1.2 r2.2)
end

/-- Candidate texts (`"".join(elem.itertext()).strip()` at each matched "p"
end event, before the emptiness test) produced while parsing one document. -/
def docCands (doc : Elem) : List String := (processElem doc).1

/-- The texts actually yielded for one document: candidates that survive the
`if text:` test. -/
def docTexts (doc : Elem) : List String :=
  (docCands doc).filter (fun s => s ≠ "")

/- Modelled from the spec, for comparison against the extractor above:
"For each matched element, concatenate all contained text (including nested
inline markup) and strip leading/trailing whitespace" — the candidate for
every "p" element is computed on the original, unmutated document, still in
end-of-element (postorder) event order. -/
mutual
def specCands : Elem → List String
  | .node ns ln t cs tl =>
      specCandsForest cs ++
        (if ln == "p" then [pyStrip (itertext (.node ns ln t cs tl))] else [])
def specCandsForest : Forest → List String
  | .nil => []
  | .cons e rest => specCands e ++ specCandsForest rest
end

/-- One row of the metadata mapping `meta_map`: the optional columns of the
tab-separated metadata table (a missing column means the key is absent from
the per-novel dict, so `dict.get` falls back to its default). -/
structure NovelMeta where
  author_name : Option String
  title : Option String
  first_edition : Option String
  num_word : Option Int
  size : Option String
  canonicity : Option String
  author_gender : Option String
deriving DecidableEq

/-- A metadata row with every optional column absent. -/
def emptyMeta : NovelMeta := ⟨none, none, none, none, none, none, none⟩

/-- One record yielded by `paragraph_generator` (the `features` schema). -/
structure PRecord where
  text : String
  author : String
  title : String
  first_edition : String
  num_word : Int
  size : String
  canonicity : String
  author_gender : String
  novel_id : String
deriving DecidableEq

/-- The dict literal yielded by `paragraph_generator`: each metadata field is
read with `novel_meta.get(key, default)`, defaults `"Unknown"` for strings
and `0` for the word count. -/
def mkRecord (text novel_id : String) (m : NovelMeta) : PRecord :=
  { text := text
    author := m.author_name.getD "Unknown"
    title := m.title.getD "Unknown"
    first_edition := m.first_edition.getD "Unknown"
    num_word := m.num_word.getD 0
    size := m.size.getD "Unknown"
    canonicity := m.canonicity.getD "Unknown"
    author_gender := m.author_gender.getD "Unknown"
    novel_id := novel_id }

/-- What the filesystem holds at a given path: no file, an unparsable XML
document, or a well-formed document with the given root element. -/
inductive File where
  | missing
  | malformed
  | parsed (root : Elem)

/-- Model of `os.path.join` for the paths this program builds. -/
def pathJoin (dir name : String) : String := dir ++ "/" ++ name

/-- Outcome of draining `paragraph_generator`: the records yielded before the
generator either finished (`err = false`) or raised an XML parse error
(`err = true`, nothing further is yielded). -/
structure GenResult where
  records : List PRecord
  err : Bool
deriving DecidableEq

/-- The `paragraph_generator` of `process.py`: iterate the metadata mapping
in order; for each novel build `<novel_id>.xml` under `level1_path`, skip the
novel if the file does not exist, abort with a parse error if it is
malformed, and otherwise yield one record per non-empty stripped paragraph
text, with the novel's metadata fields merged in. -/
def paragraphGenerator (level1Path : String) (fs : String → File) :
    List (String × NovelMeta) → GenResult
  | [] => ⟨[], false⟩
  | (novelId, m) :: rest =>
      match fs (pathJoin level1Path (novelId ++ ".xml")) with
      | .missing => paragraphGenerator level1Path fs rest
      | .malformed => ⟨[], true⟩
      | .parsed doc =>
          let recs := (docTexts doc).map (fun t => mkRecord t novelId m)
          let r := paragraphGenerator level1Path fs rest
          ⟨recs ++ r.records, r.err⟩

/-- The process environment: variable name to optional value. -/
def Env : Type := String → Option String

/-- Model of `os.getenv(key, default)`. -/
def getenvD (env : Env) (k d : String) : String := (env k).getD d

/-- Source line `LOCAL_ONLY_ENV = os.getenv("WRITE_LOCAL", "1")`. -/
def LOCAL_ONLY_ENV (env : Env) : String := getenvD env "WRITE_LOCAL" "1"

/-- Source line `LOCAL_ONLY = LOCAL_ONLY_ENV == "1" or LOCAL_ONLY_ENV.lower() == "true"`. -/
def LOCAL_ONLY (env : Env) : Bool :=
  LOCAL_ONLY_ENV env == "1" || pyLower (LOCAL_ONLY_ENV env) == "true"

/-- Source line `HF_TOKEN = os.getenv("HF_TOKEN")`. -/
def HF_TOKEN (env : Env) : Option String := env "HF_TOKEN"

/-- Python truthiness of `HF_TOKEN` as used in `if not HF_TOKEN`: falsy when
unset or the empty string. -/
def tokenFalsy : Option String → Bool
  | none => true
  | some s => s == ""

/-- Source line `SOURCE_DIR = os.getenv("SOURCE_DIR", "regenykorpusz")`. -/
def SOURCE_DIR (env : Env) : String := getenvD env "SOURCE_DIR" "regenykorpusz"

/-- Source line `LEVEL1_DIR = os.path.join(SOURCE_DIR, "level1")`. -/
def LEVEL1_DIR (env : Env) : String := pathJoin (SOURCE_DIR env) "level1"

/-- Decimal-digit parse on characters. -/
def parseNatChars (l : List Char) : Nat :=
  l.foldl (fun a c => a * 10 + (c.toNat - 48)) 0

/-- Decimal-digit parse, the model of Python `int(...)` on the digit strings
this program feeds it (the `HF_SPLIT_SEED` default `"42"`). -/
def parseNat (s : String) : Nat := parseNatChars s.data

/-- Split a character list at the first dot: integer part and, when a dot is
present, the fractional part. -/
def splitDot : List Char → List Char × Option (List Char)
  | [] => ([], none)
  | c :: rest =>
      if c = '.' then ([], some rest)
      else
        let r := splitDot rest
        (c :: r.1, r.2)

/-- Model of Python `float(...)` on the decimal literals this program feeds
it (the `HF_SPLIT_TEST_SIZE` default `"0.05"`), with rationals standing in
for floating-point values. -/
def parseDecimal (s : String) : ℚ :=
  match splitDot s.data with
  | (i, none) => (parseNatChars i : ℚ)
  | (i, some f) => (parseNatChars i : ℚ) + (parseNatChars f : ℚ) / (10 : ℚ) ^ f.length

/-- Source line `HF_SPLIT_TEST_SIZE = float(os.getenv("HF_SPLIT_TEST_SIZE", "0.05"))`. -/
def HF_SPLIT_TEST_SIZE (env : Env) : ℚ :=
  parseDecimal (getenvD env "HF_SPLIT_TEST_SIZE" "0.05")

/-- Source line `HF_SPLIT_SEED = int(os.getenv("HF_SPLIT_SEED", "42"))`. -/
def HF_SPLIT_SEED (env : Env) : Nat :=
  parseNat (getenvD env "HF_SPLIT_SEED" "42")

/-- A 64-bit linear congruential step, standing in for the library's seeded
pseudo-random generator. -/
def lcgNext (s : Nat) : Nat :=
  (6364136223846793005 * s + 1442695040888963407) % 2 ^ 64

/-- One pseudo-random sort key per row position, derived from the seed. -/
def shuffleKeys (seed n : Nat) : List Nat :=
  (List.range n).map (fun i => lcgNext (seed + i))

/-- Modelled from the spec: a reproducible pseudo-random permutation of the
rows, a pure function of the seed and the input. -/
def pyShuffle {α : Type} (seed : Nat) (rows : List α) : List α :=
  ((rows.zip (shuffleKeys seed rows.length)).mergeSort
    (fun a b => Nat.ble a.2 b.2)).map (fun a => a.1)

/-- Modelled from the spec: `Dataset.train_test_split(test_size, seed)` —
"partition rows into two disjoint subsets using a reproducible pseudo-random
assignment seeded by a configured integer, with a configured fraction
(default 5%) assigned to the test subset; no sorting is applied in this
policy."  The test subset receives `ceil(test_size * n)` rows (capped at
`n`) of the shuffled table and the train subset the rest. -/
def trainTestSplit {α : Type} (seed : Nat) (testSize : ℚ) (rows : List α) :
    List α × List α :=
  let shuffled := pyShuffle seed rows
  let nTest := min rows.length (Int.toNat ⌈testSize * rows.length⌉)
  (shuffled.drop nTest, shuffled.take nTest)

/-- The tables the run hands to the sink under the split policy. -/
structure RunOutput where
  train : List PRecord
  test : List PRecord
deriving DecidableEq

/-- The `__main__` block under the split policy: check the remote credential
first (only when `LOCAL_ONLY` is false), then materialize the generator,
then split.  A parse error while draining the generator aborts the run. -/
def mainRun (env : Env) (fs : String → File)
    (meta : List (String × NovelMeta)) : Except String RunOutput :=
  if !LOCAL_ONLY env && tokenFalsy (HF_TOKEN env) then
    .error "HF_TOKEN environment variable is not set. Please set the HF_TOKEN secret in your repository settings."
  else
    let ds := paragraphGenerator (LEVEL1_DIR env) fs meta
    if ds.err then
      .error "XMLSyntaxError"
    else
      let p := trainTestSplit (HF_SPLIT_SEED env) (HF_SPLIT_TEST_SIZE env)
        ds.records
      .ok ⟨p.1, p.2⟩

/-- A well-formed test document: a body with one paragraph reading
" Hello. " and one whitespace-only paragraph. -/
def wDocA : Elem :=
  .node "tei" "body" ""
    (.cons (.node "tei" "p" " Hello. " .nil "")
      (.cons (.node "tei" "p" "   " .nil "") .nil)) ""

/-- A document with a "p" element nested inside another "p" element. -/
def nestedDoc : Elem :=
  .node "" "root" ""
    (.cons (.node "" "p" "A" (.cons (.node "" "p" "B" .nil "C") .nil) "") .nil) ""

/-- A document containing no "p" element at all. -/
def noPDoc : Elem := .node "" "div" "some text" .nil ""

/-- A metadata row with some columns present and the rest absent. -/
def wMetaA : NovelMeta :=
  ⟨some "Kosztolanyi Dezso", some "Edes Anna", none, none, none, none, none⟩

/-- A filesystem holding exactly one parseable novel, N1. -/
def wFsA : String → File := fun path =>
  if path == "regenykorpusz/level1/N1.xml" then .parsed wDocA else .missing

/-- A filesystem where novel N2 is present but malformed. -/
def wFsBad : String → File := fun path =>
  if path == "regenykorpusz/level1/N1.xml" then .parsed wDocA
  else if path == "regenykorpusz/level1/N2.xml" then .malformed
  else .missing

/-- The metadata mapping for the single test novel. -/
def wMetaList : List (String × NovelMeta) := [("N1", wMetaA)]

/-- The one record the generator yields for `wFsA` and `wMetaList`. -/
def wRecA : PRecord := mkRecord "Hello." "N1" wMetaA

/-- An environment selecting remote mode and carrying no auth token. -/
def envRemoteNoToken : Env := fun k =>
  if k == "WRITE_LOCAL" then some "0" else none

/-- An environment with no variable set. -/
def emptyEnv : Env := fun _ => none

theorem stripChars_idem (l : List Char) :
    stripChars (stripChars l) = stripChars l := by
  unfold stripChars
  have h1 : List.dropWhile isPySpace
      (List.rdropWhile isPySpace (List.dropWhile isPySpace l)) =
      List.rdropWhile isPySpace (List.dropWhile isPySpace l) := by
    rw [List.dropWhile_eq_self_iff]
    intro hl
    have hpre := List.rdropWhile_prefix isPySpace (List.dropWhile isPySpace l)
    have hlen : 0 < (List.dropWhile isPySpace l).length :=
      lt_of_lt_of_le hl hpre.length_le
    have hx := List.dropWhile_get_zero_not isPySpace l hlen
    rw [hpre.get_eq]
    exact hx
  rw [h1, List.rdropWhile_idempotent]
theorem pyStrip_idem (s : String) : pyStrip (pyStrip s) = pyStrip s := by
  unfold pyStrip
  rw [stripChars_idem]
/- Every candidate text the event loop produces is a pyStrip image, hence
itself fixed by pyStrip. -/
mutual
theorem processElem_strip : ∀ (e : Elem), ∀ s ∈ (processElem e).1, pyStrip s = s
  | .node ns ln t cs tl => by
      have ih := processForest_strip cs
      simp only [processElem]
      split
      · intro s hs
        rcases List.mem_append.mp hs with h | h
        · exact ih s h
        · rcases List.mem_singleton.mp h with rfl
          exact pyStrip_idem _
      · exact ih
theorem processForest_strip : ∀ (f : Forest), ∀ s ∈ (processForest f).1, pyStrip s = s
  | .nil => by simp [processForest]
  | .cons e rest => by
      have ih1 := processElem_strip e
      have ih2 := processForest_strip rest
      simp only [processForest]
      intro s hs
      rcases List.mem_append.mp hs with h | h
      · exact ih1 s h
      · exact ih2 s h
end
/- A subtree containing no "p" element is left untouched by the event loop
and produces no candidates. -/
mutual
theorem processElem_of_not_hasP : ∀ (e : Elem), hasP e = false → processElem e = ([], e)
  | .node ns ln t cs tl => by
      intro h
      simp only [hasP, Bool.or_eq_false_iff, beq_eq_false_iff_ne] at h
      have ih := processForest_of_not_hasP cs h.2
      simp [processElem, ih, h.1]
theorem processForest_of_not_hasP : ∀ (f : Forest), hasPForest f = false →
    processForest f = ([], f)
  | .nil => by intro h; simp [processForest]
  | .cons e rest => by
      intro h
      simp only [hasPForest, Bool.or_eq_false_iff] at h
      have ih1 := processElem_of_not_hasP e h.1
      have ih2 := processForest_of_not_hasP rest h.2
      simp [processForest, ih1, ih2]
end
/- The spec-side candidate list of a subtree with no "p" element is empty. -/
mutual
theorem specCands_of_not_hasP : ∀ (e : Elem), hasP e = false → specCands e = []
  | .node ns ln t cs tl => by
      intro h
      simp only [hasP, Bool.or_eq_false_iff, beq_eq_false_iff_ne] at h
      have ih := specCandsForest_of_not_hasP cs h.2
      simp [specCands, ih, h.1]
theorem specCandsForest_of_not_hasP : ∀ (f : Forest), hasPForest f = false →
    specCandsForest f = []
  | .nil => by intro h; simp [specCandsForest]
  | .cons e rest => by
      intro h
      simp only [hasPForest, Bool.or_eq_false_iff] at h
      have ih1 := specCands_of_not_hasP e h.1
      have ih2 := specCandsForest_of_not_hasP rest h.2
      simp [specCandsForest, ih1, ih2]
end
/- When no "p" element nests inside another, the mutation performed by
elem.clear() never reaches a subtree that a later candidate still reads, so
the event loop's candidates agree with the spec-side candidates. -/
mutual
theorem processElem_eq_specCands : ∀ (e : Elem), noNestedP e = true →
    (processElem e).1 = specCands e
  | .node ns ln t cs tl => by
      intro h
      simp only [noNestedP, Bool.and_eq_true, Bool.or_eq_true] at h
      by_cases hp : ln = "p"
      · rcases h.1 with h1 | h1
        · simp [hp] at h1
        · have hcs : hasPForest cs = false := by
            cases hh : hasPForest cs
            · rfl
            · simp [hh] at h1
          have hproc := processForest_of_not_hasP cs hcs
          have hspec := specCandsForest_of_not_hasP cs hcs
          simp [processElem, specCands, hproc, hspec, hp]
      · have ih := processForest_eq_specCands cs h.2
        simp [processElem, specCands, hp, ih]
theorem processForest_eq_specCands : ∀ (f : Forest), noNestedPForest f = true →
    (processForest f).1 = specCandsForest f
  | .nil => by intro h; simp [processForest, specCandsForest]
  | .cons e rest => by
      intro h
      simp only [noNestedPForest, Bool.and_eq_true] at h
      have ih1 := processElem_eq_specCands e h.1
      have ih2 := processForest_eq_specCands rest h.2
      simp [processForest, specCandsForest, ih1, ih2]
end

/-- Shared helper: the modelled shuffle permutes its input. -/
theorem pyShuffle_perm {α : Type} (seed : Nat) (rows : List α) :
    (pyShuffle seed rows).Perm rows := by
  unfold pyShuffle
  have h1 := List.mergeSort_perm (rows.zip (shuffleKeys seed rows.length))
    (fun a b => Nat.ble a.2 b.2)
  have h2 := h1.map (fun a => a.1)
  have h3 : (rows.zip (shuffleKeys seed rows.length)).map (fun a => a.1) = rows :=
    List.map_fst_zip rows (shuffleKeys seed rows.length) (by simp [shuffleKeys])
  rwa [h3] at h2

/-- C1: every record yielded by `paragraph_generator` has non-empty text with
no leading or trailing whitespace; paragraph elements whose concatenated text
strips to empty are dropped silently, so no such record ever appears. -/
theorem spec_C1 (lp : String) (fs : String → File)
    (meta : List (String × NovelMeta)) (r : PRecord)
    (hr : r ∈ (paragraphGenerator lp fs meta).records) :
    r.text ≠ "" ∧ pyStrip r.text = r.text := by
  induction meta with
  | nil => simp [paragraphGenerator] at hr
  | cons hd rest ih =>
      obtain ⟨nid, m⟩ := hd
      simp only [paragraphGenerator] at hr
      split at hr
      · exact ih hr
      · simp at hr
      · rename_i doc heq
        simp only [docTexts, docCands] at hr
        rcases List.mem_append.mp hr with h | h
        · obtain ⟨t, ht, rfl⟩ := List.mem_map.mp h
          obtain ⟨ht1, ht2⟩ := List.mem_filter.mp ht
          refine ⟨by simpa [mkRecord] using ht2, ?_⟩
          simpa [mkRecord] using processElem_strip doc t ht1
        · exact ih h

/-- C1 witness: the record extracted from the test corpus is non-empty and
stripped. -/
theorem spec_C1_witness : wRecA.text ≠ "" ∧ pyStrip wRecA.text = wRecA.text :=
  spec_C1 "regenykorpusz/level1" wFsA wMetaList wRecA (by decide)

/-- C2: a novel whose XML file is absent contributes nothing: the generator
run over a metadata list starting with that novel equals the run over the
remaining novels (no record, no error), and no record of any run carries the
identifier of a novel whose file is missing. -/
theorem spec_C2 (lp : String) (fs : String → File)
    (meta rest : List (String × NovelMeta)) (nid : String) (m : NovelMeta)
    (r : PRecord)
    (hmiss : fs (pathJoin lp (nid ++ ".xml")) = File.missing)
    (hr : r ∈ (paragraphGenerator lp fs meta).records) :
    paragraphGenerator lp fs ((nid, m) :: rest) = paragraphGenerator lp fs rest ∧
    r.novel_id ≠ nid := by
  constructor
  · simp [paragraphGenerator, hmiss]
  · induction meta with
    | nil => simp [paragraphGenerator] at hr
    | cons hd rest2 ih =>
        obtain ⟨n2, m2⟩ := hd
        simp only [paragraphGenerator] at hr
        split at hr
        · exact ih hr
        · simp at hr
        · rename_i doc heq
          rcases List.mem_append.mp hr with h | h
          · obtain ⟨t, ht, rfl⟩ := List.mem_map.mp h
            simp only [mkRecord]
            intro hcontra
            rw [hcontra] at heq
            rw [hmiss] at heq
            exact File.noConfusion heq
          · exact ih h

/-- C2 witness: with N2 absent from the filesystem, prepending N2 changes
nothing and the extracted record does not carry N2. -/
theorem spec_C2_witness :
    paragraphGenerator "regenykorpusz/level1" wFsA (("N2", emptyMeta) :: wMetaList) =
      paragraphGenerator "regenykorpusz/level1" wFsA wMetaList ∧
    wRecA.novel_id ≠ "N2" :=
  spec_C2 "regenykorpusz/level1" wFsA wMetaList wMetaList "N2" emptyMeta wRecA
    rfl (by decide)

/-- C3: every emitted record originates from a metadata row of the mapping,
and whenever an optional column of that row is absent the record carries the
sentinel "Unknown" (0 for the word count); moreover whether the run errors
never depends on the metadata fields (blanking every row changes nothing). -/
theorem spec_C3 (lp : String) (fs : String → File)
    (meta : List (String × NovelMeta)) (r : PRecord)
    (hr : r ∈ (paragraphGenerator lp fs meta).records) :
    (∃ m : NovelMeta, (r.novel_id, m) ∈ meta ∧
      (m.author_name = none → r.author = "Unknown") ∧
      (m.title = none → r.title = "Unknown") ∧
      (m.first_edition = none → r.first_edition = "Unknown") ∧
      (m.size = none → r.size = "Unknown") ∧
      (m.canonicity = none → r.canonicity = "Unknown") ∧
      (m.author_gender = none → r.author_gender = "Unknown") ∧
      (m.num_word = none → r.num_word = 0)) ∧
    (paragraphGenerator lp fs meta).err =
      (paragraphGenerator lp fs (meta.map (fun q => (q.1, emptyMeta)))).err := by
  constructor
  · induction meta with
    | nil => simp [paragraphGenerator] at hr
    | cons hd rest ih =>
        obtain ⟨nid, m⟩ := hd
        simp only [paragraphGenerator] at hr
        split at hr
        · obtain ⟨m2, hm2, hflds⟩ := ih hr
          exact ⟨m2, List.mem_cons_of_mem _ hm2, hflds⟩
        · simp at hr
        · rename_i doc heq
          rcases List.mem_append.mp hr with h | h
          · obtain ⟨t, ht, rfl⟩ := List.mem_map.mp h
            refine ⟨m, List.mem_cons_self _ _, ?_⟩
            refine ⟨?_, ?_, ?_, ?_, ?_, ?_, ?_⟩ <;>
              (intro hnone; simp [mkRecord, hnone])
          · obtain ⟨m2, hm2, hflds⟩ := ih h
            exact ⟨m2, List.mem_cons_of_mem _ hm2, hflds⟩
  · clear hr
    induction meta with
    | nil => simp [paragraphGenerator]
    | cons hd rest ih =>
        obtain ⟨nid, m⟩ := hd
        simp only [List.map_cons, paragraphGenerator]
        cases hf : fs (pathJoin lp (nid ++ ".xml")) <;> simp [ih]

/-- C3 witness: the record of the test novel, whose metadata row lacks the
optional columns beyond author and title, carries the defaults. -/
theorem spec_C3_witness :
    (∃ m : NovelMeta, (wRecA.novel_id, m) ∈ wMetaList ∧
      (m.author_name = none → wRecA.author = "Unknown") ∧
      (m.title = none → wRecA.title = "Unknown") ∧
      (m.first_edition = none → wRecA.first_edition = "Unknown") ∧
      (m.size = none → wRecA.size = "Unknown") ∧
      (m.canonicity = none → wRecA.canonicity = "Unknown") ∧
      (m.author_gender = none → wRecA.author_gender = "Unknown") ∧
      (m.num_word = none → wRecA.num_word = 0)) ∧
    (paragraphGenerator "regenykorpusz/level1" wFsA wMetaList).err =
      (paragraphGenerator "regenykorpusz/level1" wFsA
        (wMetaList.map (fun q => (q.1, emptyMeta)))).err :=
  spec_C3 "regenykorpusz/level1" wFsA wMetaList wRecA (by decide)

/-- C4: under the split policy the two subsets partition the materialized
table: their sizes sum to the row count and their concatenation is a
permutation of the input rows (each row occurrence lands in exactly one
subset), for every seed, fraction and input. -/
theorem spec_C4 (seed : Nat) (testSize : ℚ) (rows : List PRecord) :
    (trainTestSplit seed testSize rows).1.length
        + (trainTestSplit seed testSize rows).2.length = rows.length ∧
    ((trainTestSplit seed testSize rows).1
        ++ (trainTestSplit seed testSize rows).2).Perm rows := by
  have hperm := pyShuffle_perm seed rows
  have hlen : (pyShuffle seed rows).length = rows.length := hperm.length_eq
  unfold trainTestSplit
  constructor
  · simp only [List.length_drop, List.length_take, hlen]
    omega
  · exact (List.perm_append_comm.trans
      (by rw [List.take_append_drop])).trans hperm

/-- C5: the split is a pure function of seed, fraction and input — two runs
with equal parameters produce the identical partition — and the defaults are
test fraction 0.05 and seed 42. -/
theorem spec_C5 (seed1 seed2 : Nat) (t1 t2 : ℚ) (rows1 rows2 : List PRecord)
    (hs : seed1 = seed2) (ht : t1 = t2) (hr : rows1 = rows2) :
    trainTestSplit seed1 t1 rows1 = trainTestSplit seed2 t2 rows2 ∧
    HF_SPLIT_TEST_SIZE emptyEnv = 1 / 20 ∧ HF_SPLIT_SEED emptyEnv = 42 := by
  subst hs ht hr
  refine ⟨rfl, ?_, by decide⟩
  have h : splitDot ("0.05".data) = (['0'], some ['0', '5']) := rfl
  have h2 : parseNatChars ['0'] = 0 := rfl
  have h3 : parseNatChars ['0', '5'] = 5 := rfl
  simp [HF_SPLIT_TEST_SIZE, getenvD, emptyEnv, parseDecimal, h, h2, h3]
  norm_num

/-- C5 witness: two runs at the default seed and fraction on the same table
coincide. -/
theorem spec_C5_witness :
    trainTestSplit 42 (1 / 20 : ℚ) [wRecA] = trainTestSplit 42 (1 / 20 : ℚ) [wRecA] ∧
    HF_SPLIT_TEST_SIZE emptyEnv = 1 / 20 ∧ HF_SPLIT_SEED emptyEnv = 42 :=
  spec_C5 42 42 (1 / 20) (1 / 20) [wRecA] [wRecA] rfl rfl rfl

/-- C6 counterexample: for a "p" element nested inside another "p" element
the claim fails — `elem.clear()` on the inner paragraph runs before the
outer paragraph's end event, so the outer candidate is "A" where the
concatenation of all original descendant text is "ABC". -/
theorem spec_C6_cex :
    docCands nestedDoc = ["B", "A"] ∧ specCands nestedDoc = ["B", "ABC"] ∧
      docCands nestedDoc ≠ specCands nestedDoc := by decide

/-- C6 (amended): provided no "p" element is nested inside another "p"
element, every matched element's candidate text equals the concatenation of
all its descendant text stripped of surrounding whitespace, and elements
with any other local name contribute no records. -/
theorem spec_C6 (doc : Elem) :
    (noNestedP doc = true → docCands doc = specCands doc) ∧
    (hasP doc = false → docCands doc = []) := by
  constructor
  · exact processElem_eq_specCands doc
  · intro h
    simp [docCands, processElem_of_not_hasP doc h]

/-- C6 witness: on the nesting-free test document the candidates agree with
the spec-side concatenation, and a document without "p" yields nothing. -/
theorem spec_C6_witness :
    docCands wDocA = specCands wDocA ∧ docCands noPDoc = [] :=
  ⟨(spec_C6 wDocA).1 (by decide), (spec_C6 noPDoc).2 (by decide)⟩

/-- C7: a malformed XML document aborts the run: the generator emits the
records of the novels preceding it, then the parse error propagates — the
malformed novel and every novel after it contribute no records. -/
theorem spec_C7 (lp : String) (fs : String → File)
    (pre : List (String × NovelMeta)) (nid : String) (m : NovelMeta)
    (post : List (String × NovelMeta))
    (hbad : fs (pathJoin lp (nid ++ ".xml")) = File.malformed)
    (hok : (paragraphGenerator lp fs pre).err = false) :
    paragraphGenerator lp fs (pre ++ (nid, m) :: post) =
      ⟨(paragraphGenerator lp fs pre).records, true⟩ := by
  induction pre with
  | nil => simp [paragraphGenerator, hbad]
  | cons hd rest ih =>
      obtain ⟨n2, m2⟩ := hd
      rw [List.cons_append]
      cases hf : fs (pathJoin lp (n2 ++ ".xml")) with
      | missing =>
          simp only [paragraphGenerator, hf] at hok ⊢
          exact ih hok
      | malformed =>
          simp only [paragraphGenerator, hf] at hok
          simp at hok
      | parsed doc =>
          simp only [paragraphGenerator, hf] at hok ⊢
          rw [ih hok]

/-- C7 witness: with N2 malformed, the run yields only N1's record and then
the error; N3 is never reached. -/
theorem spec_C7_witness :
    paragraphGenerator "regenykorpusz/level1" wFsBad
        (wMetaList ++ ("N2", emptyMeta) :: [("N3", emptyMeta)]) =
      ⟨(paragraphGenerator "regenykorpusz/level1" wFsBad wMetaList).records,
        true⟩ :=
  spec_C7 "regenykorpusz/level1" wFsBad wMetaList "N2" emptyMeta
    [("N3", emptyMeta)] rfl (by decide)

/-- C8: when remote mode is selected and the auth token is unset, the run
fails with the configuration error, uniformly in the filesystem and the
metadata — no extraction, splitting or writing is performed. -/
theorem spec_C8 (env : Env) (fs : String → File)
    (meta : List (String × NovelMeta))
    (hmode : LOCAL_ONLY env = false) (htok : HF_TOKEN env = none) :
    mainRun env fs meta = Except.error
      "HF_TOKEN environment variable is not set. Please set the HF_TOKEN secret in your repository settings." := by
  simp [mainRun, hmode, htok, tokenFalsy]

/-- C8 witness: the remote-mode environment without a token errors out on
the test corpus. -/
theorem spec_C8_witness :
    mainRun envRemoteNoToken wFsA wMetaList = Except.error
      "HF_TOKEN environment variable is not set. Please set the HF_TOKEN secret in your repository settings." :=
  spec_C8 envRemoteNoToken wFsA wMetaList (by decide) rfl

/-- C10: the destination is local exactly when WRITE_LOCAL is unset, equals
"1", or lowercases to "true"; every other value selects remote mode. -/
theorem spec_C10 (env : Env) :
    LOCAL_ONLY env = true ↔
      (env "WRITE_LOCAL" = none ∨ env "WRITE_LOCAL" = some "1" ∨
        ∃ s, env "WRITE_LOCAL" = some s ∧ pyLower s = "true") := by
  cases h : env "WRITE_LOCAL" with
  | none => simp [LOCAL_ONLY, LOCAL_ONLY_ENV, getenvD, h]
  | some s => simp [LOCAL_ONLY, LOCAL_ONLY_ENV, getenvD, h]

end Process
